import Mathlib

/-!
A shallow embedding of the go2oapi translator (`parser.go`) and of the
duplicate type-mapping implementation shipped alongside it, together with
theorems settling the specification claims about the translator.

Conventions of the embedding:
* Go strings are `String`; the `DataType` string type is `abbrev DataType := String`
  and the constants `Object`, `Array`, ... are written as their literal values
  `"object"`, `"array"`, `"integer"`, `"number"`, `"string"`, `"boolean"`, `"null"`.
* The subset of `go/ast` used by the translator is the mutual inductive
  `Expr`/`Field` below.  An `Expr.ident name decl` models an `*ast.Ident`:
  `decl = some ty` means the identifier's `Obj` is a `*ast.TypeSpec` whose
  `Type` field is `ty`; `decl = none` models a nil `Obj` (predeclared basic
  types) or an `Obj` whose declaration is not a type specification.
  `pkg.TypesInfo` underlying-type queries are modelled by chasing `decl`
  (`underlyingIsStruct`).
* Go's `map[string]*Definition` assignment is modelled by `insertProp` on an
  association list (overwrite on an existing key, append otherwise), which is
  observationally the map's key/value content in insertion order.
* A function that can return an error, or crash on a nil dereference or a
  failed type assertion, returns a `PResult`: `.ok`, `.err` (Go `error`
  return) or `.panic` (Go runtime panic).
-/

abbrev DataType := String

namespace ast

mutual
inductive Expr where
  | ident (name : String) (decl : Option Expr) : Expr
  | arrayType (elt : Expr) : Expr
  | starExpr (x : Expr) : Expr
  | structType (fields : List Field) : Expr
  | other (desc : String) : Expr

inductive Field where
  | mk (names : List String) (ty : Expr) (tag : Option String)
       (doc : List String) (comment : List String) : Field
end

def Field.names : Field → List String
  | .mk ns _ _ _ _ => ns

def Field.ty : Field → Expr
  | .mk _ t _ _ _ => t

def Field.tag : Field → Option String
  | .mk _ _ tg _ _ => tg

end ast

/-- `Definition` from the repository's type declarations (a recursive schema
node: type, description, enum, properties, required, items). -/
inductive Definition where
  | mk (type : DataType) (description : String) (enum : List String)
       (properties : List (String × Definition)) (required : List String)
       (items : Option Definition) : Definition

def Definition.type : Definition → DataType
  | .mk t _ _ _ _ _ => t

def Definition.description : Definition → String
  | .mk _ d _ _ _ _ => d

def Definition.enum : Definition → List String
  | .mk _ _ e _ _ _ => e

def Definition.properties : Definition → List (String × Definition)
  | .mk _ _ _ p _ _ => p

def Definition.required : Definition → List String
  | .mk _ _ _ _ r _ => r

def Definition.items : Definition → Option Definition
  | .mk _ _ _ _ _ i => i

/-- `FunctionDetails` from the repository's type declarations. -/
structure FunctionDetails where
  name : String
  description : String
  parameters : Definition

/-- `goTypesToDataType` from parser.go: a Go map literal; a lookup of a key
absent from the map yields the zero value `""`. -/
def goTypesToDataType (n : String) : DataType :=
  if n = "int" then "integer"
  else if n = "int32" then "integer"
  else if n = "int64" then "integer"
  else if n = "string" then "string"
  else if n = "float" then "number"
  else if n = "bool" then "boolean"
  else ""

/-- Chases a resolved declaration chain down to a struct type. -/
def underlyingIsStructE : ast.Expr → Bool
  | .structType _ => true
  | .ident _ (some e) => underlyingIsStructE e
  | _ => false

/-- Models `pkg.TypesInfo.Types[t].Type.Underlying()` being a `*types.Struct`
for an identifier: the identifier's resolved declaration chain ends in a
struct type. -/
def underlyingIsStruct : Option ast.Expr → Bool
  | some e => underlyingIsStructE e
  | none => false

/-- `exprToType` from parser.go. -/
def exprToType : ast.Expr → DataType
  | .ident n d => if underlyingIsStruct d then "object" else goTypesToDataType n
  | .arrayType _ => "array"
  | .starExpr x => exprToType x
  | .structType _ => "object"
  | .other _ => "null"

/-- `trimCommentPrefix` from parser.go: the regexp `^// ?` strips a leading
`//` and at most one following space. -/
def trimCommentPrefix (c : String) : String :=
  match c.toList with
  | '/' :: '/' :: ' ' :: rest => rest.asString
  | '/' :: '/' :: rest => rest.asString
  | _ => c

/-- `strings.Join(parts, " ")`. -/
def joinSpace : List String → String
  | [] => ""
  | [s] => s
  | s :: rest => s ++ " " ++ joinSpace rest

/-- `cleanupComment` from parser.go: each comment group contributes its
lines, each with the comment marker stripped; all joined by single spaces
(a nil group is the empty list). -/
def cleanupComment (groups : List (List String)) : String :=
  joinSpace ((groups.flatten).map trimCommentPrefix)

/-- `identsToName` from parser.go: first non-empty identifier name, else `""`
(an unnamed parameter has no identifiers at all). -/
def identsToName : List String → String
  | [] => ""
  | n :: rest => if n ≠ "" then n else identsToName rest

/-- The backquote character delimiting Go raw tag literals. -/
def backquote : Char := Char.ofNat 96

/-- `strings.Trim(tag, "\x60")`: remove all leading and trailing backquotes. -/
def trimBackquotes (s : String) : String :=
  (((s.toList.dropWhile (· = backquote)).reverse.dropWhile (· = backquote)).reverse).asString

/-- `strings.Split(value, ",")` on a character list: comma-separated groups
(the split of the empty string is one empty group). -/
def splitCommas : List Char → List (List Char)
  | [] => [[]]
  | ',' :: rest => [] :: splitCommas rest
  | c :: rest =>
    match splitCommas rest with
    | [] => [[c]]
    | g :: gs => (c :: g) :: gs

/-- Scanner state for the declarative-tag parser. -/
inductive TagScanState where
  | between : TagScanState
  | key (acc : List Char) : TagScanState
  | colon (key : List Char) : TagScanState
  | value (key : List Char) (acc : List Char) : TagScanState

/-- Modelled from the spec: the external declarative-tag parsing dependency
(`structtag.Parse`), which is not part of this repository's sources.  Per the
spec, declarative tags are "inline structured metadata attached to a field
... read as key→value(s) pairs", written as space-separated
`key:"value,option,..."` pairs, and "malformed tag syntax is a hard failure".
The scanner consumes the tag character by character: a key runs up to a `:`,
which must be followed by a double-quoted value; the value is split on commas
into the primary value followed by its options. -/
def tagScan : List Char → TagScanState → List (String × List String) →
    Except String (List (String × List String))
  | [], .between, pairs => .ok pairs
  | [], _, _ => .error "bad syntax for struct tag pair"
  | c :: rest, .between, pairs =>
    if c = ' ' then tagScan rest .between pairs
    else if c = ':' ∨ c = '"' then .error "bad syntax for struct tag key"
    else tagScan rest (.key [c]) pairs
  | c :: rest, .key acc, pairs =>
    if c = ':' then tagScan rest (.colon acc) pairs
    else if c = ' ' ∨ c = '"' then .error "bad syntax for struct tag pair"
    else tagScan rest (.key (acc ++ [c])) pairs
  | c :: rest, .colon k, pairs =>
    if c = '"' then tagScan rest (.value k []) pairs
    else .error "bad syntax for struct tag value"
  | c :: rest, .value k acc, pairs =>
    if c = '"' then
      tagScan rest .between (pairs ++ [(k.asString, (splitCommas acc).map List.asString)])
    else tagScan rest (.value k (acc ++ [c])) pairs

/-- Modelled from the spec: entry point of the tag-parsing dependency. -/
def structtagParse (s : String) : Except String (List (String × List String)) :=
  tagScan s.toList .between []

/-- `parseEnumTag` from parser.go: trim the backquotes, parse the tag, and
return the `enum` key's primary value followed by its options (an absent
`enum` key yields no options and no error; a parse failure is wrapped). -/
def parseEnumTag (tagLit : String) : Except String (List String) :=
  let tag := trimBackquotes tagLit
  match structtagParse tag with
  | .error e => .error ("parse('" ++ tag ++ "'): " ++ e)
  | .ok pairs =>
    match pairs.lookup "enum" with
    | none => .ok []
    | some vs => .ok vs

/-- Result of a Go call that may return normally, return an error, or panic
(nil dereference / failed type assertion). -/
inductive PResult (α : Type) where
  | ok (a : α) : PResult α
  | err (e : String) : PResult α
  | panic : PResult α

/-- Go map assignment `m[k] = v` on the association-list view of the map:
overwrite the entry when the key is present, append a new entry otherwise. -/
def insertProp : List (String × Definition) → String → Definition → List (String × Definition)
  | [], k, v => [(k, v)]
  | (k', v') :: rest, k, v =>
    if k' = k then (k, v) :: rest else (k', v') :: insertProp rest k v

mutual
/-- `paramToDetail` from parser.go.  The `Definition` is built with the
expression's `exprToType`, the cleaned doc/trailing comments and the enum tag
values; when the type is `"object"` the struct fields (from a literal struct
type or from the identifier's resolved struct declaration,
`findStructTypeFromIdent`) are translated recursively into `properties` — any
other expression shape leaves the struct node nil and the Go code panics
dereferencing it; when the type is `"array"` the `items` child carries just
the element's `exprToType` (the Go code's type assertion to `*ast.ArrayType`
panics when the expression is not literally an array type).  The `required`
list of the built node is never populated. -/
def paramToDetail (f : ast.Field) : PResult Definition :=
  match f with
  | .mk _names ty tag doc comment =>
    match (match tag with | none => Except.ok [] | some tg => parseEnumTag tg) with
    | .error e => .err ("issue parsing 'enum' field tag: " ++ e)
    | .ok enum =>
      match (if exprToType ty = "object" then
               match ty with
               | .structType fs => fieldListAcc fs []
               | .ident _ (some (.structType fs)) => fieldListAcc fs []
               | _ => PResult.panic
             else .ok []) with
      | .err e => .err e
      | .panic => .panic
      | .ok props =>
        match (if exprToType ty = "array" then
                 match ty with
                 | .arrayType elt => PResult.ok (some (Definition.mk (exprToType elt) "" [] [] [] none))
                 | _ => PResult.panic
               else .ok none) with
        | .err e => .err e
        | .panic => .panic
        | .ok items =>
          .ok (.mk (exprToType ty) (cleanupComment [doc, comment]) enum props [] items)

/-- The field loop of `paramToDetail`'s object branch: translate each struct
field in declaration order and assign it into the properties map under its
`identsToName`; the first failing field aborts. -/
def fieldListAcc : List ast.Field → List (String × Definition) → PResult (List (String × Definition))
  | [], acc => .ok acc
  | f :: fs, acc =>
    match paramToDetail f with
    | .err e => .err e
    | .panic => .panic
    | .ok d => fieldListAcc fs (insertProp acc (identsToName f.names) d)
end

/-- The parameter loop of `ParseFunction`: for each parameter field, translate
it via `paramToDetail` (wrapping a failure with the parameter's name), assign
the result into the properties map under `identsToName` and append that name
to `required`. -/
def processParams : List ast.Field → List (String × Definition) → List String →
    PResult (List (String × Definition) × List String)
  | [], props, req => .ok (props, req)
  | p :: rest, props, req =>
    match paramToDetail p with
    | .err e => .err ("issue parsing parameter '" ++ identsToName p.names ++ "': " ++ e)
    | .panic => .panic
    | .ok pd =>
      processParams rest (insertProp props (identsToName p.names) pd)
        (req ++ [identsToName p.names])

namespace ast

/-- `*ast.FuncDecl`: name, leading doc-comment lines and parameter list
(`nil` parameter list modelled as `none`). -/
structure FuncDecl where
  name : String
  doc : List String
  params : Option (List Field)

/-- A top-level declaration of a file: a function declaration or anything
else (type, var, const, ...). -/
inductive Decl where
  | funcDecl (fd : FuncDecl) : Decl
  | otherDecl : Decl

/-- `*ast.File`: its ordered top-level declarations. -/
structure File where
  decls : List Decl

end ast

/-- `*packages.Package`: its parsed syntax files (`pkg.Syntax`). -/
structure Package where
  syntaxFiles : List ast.File

/-- The declaration loop of `findFunctionFile`: first `*ast.FuncDecl` whose
name equals the requested one, skipping non-function declarations. -/
def findInDecls : List ast.Decl → String → Option ast.FuncDecl
  | [], _ => none
  | .funcDecl fd :: rest, n => if fd.name = n then some fd else findInDecls rest n
  | .otherDecl :: rest, n => findInDecls rest n

/-- `findFunctionFile` from parser.go. -/
def findFunctionFile (f : ast.File) (funcName : String) : Option ast.FuncDecl :=
  findInDecls f.decls funcName

/-- `findFunction` from parser.go: scan the package's syntax files in order
and return the first file's match. -/
def findFunction : List ast.File → String → Option ast.FuncDecl
  | [], _ => none
  | f :: rest, n =>
    match findFunctionFile f n with
    | some fd => some fd
    | none => findFunction rest n

/-- The package loop of `ParseFunction`: `for _, p := range pkgs { f, ok :=
findFunction(p, funcName); if ok { fn = f; pkg = p } }` — every later match
overwrites an earlier one and the loop has no break. -/
def locateFunction (pkgs : List Package) (n : String) : Option ast.FuncDecl :=
  pkgs.foldl
    (fun acc p =>
      match findFunction p.syntaxFiles n with
      | some f => some f
      | none => acc)
    none

/-- What the source-analysis provider (`packages.Load` plus
`packages.PrintErrors`) gives `ParseFunction`: either a hard load error, or
the loaded packages together with the number of package errors that
`packages.PrintErrors` would report. -/
inductive LoadResult where
  | loadErr (msg : String) : LoadResult
  | loaded (pkgs : List Package) (errorCount : Nat) : LoadResult

/-- How a call of `ParseFunction` ends: process termination via `os.Exit`,
an error return, a normal return, or a runtime panic. -/
inductive ParseOutcome where
  | exit (code : Nat) : ParseOutcome
  | err (msg : String) : ParseOutcome
  | ok (fd : FunctionDetails) : ParseOutcome
  | panic : ParseOutcome

/-- An outcome hands a value (result or error) back to the caller exactly
when it is a normal or error return. -/
def returnsToCaller : ParseOutcome → Bool
  | .ok _ => true
  | .err _ => true
  | _ => false

/-- `ParseFunction` from parser.go: on a `packages.Load` error it prints to
standard error and calls `os.Exit(1)`; when the loaded packages carry errors
it returns the bare error `"parse error"`; otherwise it locates the function
(last loaded package wins), returns `ErrFunctionNotFound` when no package
declares it, and else builds the `FunctionDetails` with an `"object"`
parameters node filled by the parameter loop. -/
def parseFunctionModel (lr : LoadResult) (funcName : String) : ParseOutcome :=
  match lr with
  | .loadErr _ => .exit 1
  | .loaded pkgs errorCount =>
    if errorCount > 0 then .err "parse error"
    else
      match locateFunction pkgs funcName with
      | none => .err "function not found"
      | some fn =>
        match fn.params with
        | none => .ok ⟨fn.name, cleanupComment [fn.doc], .mk "object" "" [] [] [] none⟩
        | some ps =>
          match processParams ps [] [] with
          | .err e => .err e
          | .panic => .panic
          | .ok (props, req) =>
            .ok ⟨fn.name, cleanupComment [fn.doc], .mk "object" "" [] props req none⟩

/-- `types.BasicKind` (the kinds the duplicate implementation's switch
distinguishes; `Other` stands for every remaining kind). -/
inductive BasicKind where
  | Bool | Int | Int8 | Int16 | Int32 | Int64
  | Uint | Uint8 | Uint16 | Uint32 | Uint64
  | Float32 | Float64 | String | Other
deriving DecidableEq

/-- `basicTypeToDataType` from the duplicate implementation shipped next to
parser.go: booleans, all integer widths, both float widths and strings map to
their schema types; everything else maps to `"null"`. -/
def basicTypeToDataType : BasicKind → DataType
  | .Bool => "boolean"
  | .Int | .Int8 | .Int16 | .Int32 | .Int64 => "integer"
  | .Uint | .Uint8 | .Uint16 | .Uint32 | .Uint64 => "integer"
  | .Float32 | .Float64 => "number"
  | .String => "string"
  | .Other => "null"

/-- `types.Type` shapes distinguished by the duplicate implementation's
switch over `typ.Underlying()`. -/
inductive GoType where
  | basic (k : BasicKind) : GoType
  | array (elem : GoType) : GoType
  | slice (elem : GoType) : GoType
  | structT : GoType
  | pointer (elem : GoType) : GoType
  | otherT : GoType

/-- `exprToType` from the duplicate implementation: `info.TypeOf(expr)` is
modelled by the function `tf`; a `nil` type is `"null"`, and the underlying
type dispatches as in the source.  In the pointer case the source recurses on
a freshly allocated `&ast.Ident{Name: typ.Elem().String()}`; `info.TypeOf` is
keyed by node identity and never contains that fresh node, so the recursive
call's `info.TypeOf` is `nil` and the branch produces `"null"`. -/
def exprToTypeDup (tf : ast.Expr → Option GoType) (e : ast.Expr) : DataType :=
  match tf e with
  | none => "null"
  | some t =>
    match t with
    | .basic k => basicTypeToDataType k
    | .array _ => "array"
    | .slice _ => "array"
    | .structT => "object"
    | .pointer _ => "null"
    | .otherT => "null"

/-- A representative static-type resolution for predeclared basic-type
identifiers, an array type and a struct literal, used to compare the two
`exprToType` implementations on expressions whose static type resolves. -/
def tfStd (e : ast.Expr) : Option GoType :=
  match e with
  | .ident "bool" none => some (.basic .Bool)
  | .ident "int" none => some (.basic .Int)
  | .ident "int32" none => some (.basic .Int32)
  | .ident "int64" none => some (.basic .Int64)
  | .ident "string" none => some (.basic .String)
  | .ident "float64" none => some (.basic .Float64)
  | .ident "uint8" none => some (.basic .Uint8)
  | .arrayType (.ident "int" none) => some (.slice (.basic .Int))
  | .structType [] => some .structT
  | _ => none

/-- First match over a package list (first package wins), used to state what
`ParseFunction`'s overwrite loop actually computes. -/
def firstPkgMatch : List Package → String → Option ast.FuncDecl
  | [], _ => none
  | p :: rest, n =>
    match findFunction p.syntaxFiles n with
    | some f => some f
    | none => firstPkgMatch rest n

theorem firstPkgMatch_append (l₁ l₂ : List Package) (n : String) :
    firstPkgMatch (l₁ ++ l₂) n =
      match firstPkgMatch l₁ n with
      | some f => some f
      | none => firstPkgMatch l₂ n := by
  induction l₁ with
  | nil => simp [firstPkgMatch]
  | cons p ps ih =>
    simp only [List.cons_append, firstPkgMatch]
    cases findFunction p.syntaxFiles n <;> simp [ih]

theorem locateFunction_foldl_aux (n : String) (pkgs : List Package)
    (acc : Option ast.FuncDecl) :
    pkgs.foldl
        (fun acc p =>
          match findFunction p.syntaxFiles n with
          | some f => some f
          | none => acc)
        acc =
      match firstPkgMatch pkgs.reverse n with
      | some f => some f
      | none => acc := by
  induction pkgs generalizing acc with
  | nil => simp [firstPkgMatch]
  | cons p ps ih =>
    simp only [List.foldl_cons, ih, List.reverse_cons, firstPkgMatch_append]
    cases firstPkgMatch ps.reverse n <;>
      cases hf : findFunction p.syntaxFiles n <;> simp [firstPkgMatch, hf]

theorem insertProp_keys (props : List (String × Definition)) (k : String) (v : Definition) :
    (insertProp props k v).map Prod.fst =
      if k ∈ props.map Prod.fst then props.map Prod.fst
      else props.map Prod.fst ++ [k] := by
  induction props with
  | nil => simp [insertProp]
  | cons kv rest ih =>
    obtain ⟨k', v'⟩ := kv
    by_cases hk : k' = k
    · subst hk; simp [insertProp]
    · have hk2 : ¬ k = k' := fun h => hk h.symm
      simp only [insertProp, if_neg hk, List.map_cons, ih]
      by_cases hmem : k ∈ rest.map Prod.fst
      · simp [List.mem_cons, hmem, hk2]
      · simp [List.mem_cons, hmem, hk2]

theorem mem_insertProp_keys_self (props : List (String × Definition)) (k : String)
    (v : Definition) : k ∈ (insertProp props k v).map Prod.fst := by
  rw [insertProp_keys]
  by_cases hmem : k ∈ props.map Prod.fst <;> simp [hmem]

theorem mem_insertProp_keys_mono (props : List (String × Definition)) (a k : String)
    (v : Definition) (h : a ∈ props.map Prod.fst) :
    a ∈ (insertProp props k v).map Prod.fst := by
  rw [insertProp_keys]
  by_cases hmem : k ∈ props.map Prod.fst <;> simp [hmem, h]

theorem nodup_insertProp_keys (props : List (String × Definition)) (k : String)
    (v : Definition) (h : (props.map Prod.fst).Nodup) :
    ((insertProp props k v).map Prod.fst).Nodup := by
  rw [insertProp_keys]
  by_cases hmem : k ∈ props.map Prod.fst
  · simpa [hmem] using h
  · simp only [if_neg hmem, List.nodup_append]
    refine ⟨h, List.nodup_singleton _, ?_⟩
    intro a ha hax
    rw [List.mem_singleton] at hax
    subst hax
    exact hmem ha

theorem processParams_ok_required (ps : List ast.Field)
    (props : List (String × Definition)) (req : List String)
    (out : List (String × Definition) × List String)
    (h : processParams ps props req = .ok out) :
    out.2 = req ++ ps.map (fun p => identsToName p.names) := by
  induction ps generalizing props req with
  | nil =>
    simp only [processParams] at h
    cases h
    simp
  | cons p rest ih =>
    simp only [processParams] at h
    cases hp : paramToDetail p <;> rw [hp] at h
    · exact (by simpa using ih _ _ h)
    · exact absurd h (by simp)
    · exact absurd h (by simp)

theorem processParams_ok_keys (ps : List ast.Field)
    (props : List (String × Definition)) (req : List String)
    (out : List (String × Definition) × List String)
    (h : processParams ps props req = .ok out) :
    ((props.map Prod.fst).Nodup → (out.1.map Prod.fst).Nodup) ∧
      (∀ a ∈ props.map Prod.fst, a ∈ out.1.map Prod.fst) ∧
      (∀ p ∈ ps, identsToName p.names ∈ out.1.map Prod.fst) := by
  induction ps generalizing props req with
  | nil =>
    simp only [processParams] at h
    cases h
    exact ⟨id, fun a ha => ha, by simp⟩
  | cons p rest ih =>
    simp only [processParams] at h
    cases hp : paramToDetail p <;> rw [hp] at h
    case ok pd =>
      obtain ⟨h1, h2, h3⟩ := ih _ _ h
      refine ⟨fun hnd => h1 (nodup_insertProp_keys _ _ _ hnd), ?_, ?_⟩
      · exact fun a ha => h2 a (mem_insertProp_keys_mono _ _ _ _ ha)
      · intro q hq
        rcases List.mem_cons.mp hq with rfl | hq'
        · exact h2 _ (mem_insertProp_keys_self _ _ _)
        · exact h3 q hq'
    case err => exact absurd h (by simp)
    case panic => exact absurd h (by simp)

theorem fieldListAcc_ok_keys (fs : List ast.Field)
    (acc : List (String × Definition)) (out : List (String × Definition))
    (h : fieldListAcc fs acc = .ok out) :
    (∀ a ∈ acc.map Prod.fst, a ∈ out.map Prod.fst) ∧
      (∀ f ∈ fs, identsToName f.names ∈ out.map Prod.fst) := by
  induction fs generalizing acc with
  | nil =>
    simp only [fieldListAcc] at h
    cases h
    exact ⟨fun a ha => ha, by simp⟩
  | cons f rest ih =>
    simp only [fieldListAcc] at h
    cases hf : paramToDetail f <;> rw [hf] at h
    case ok d =>
      obtain ⟨h1, h2⟩ := ih _ h
      refine ⟨fun a ha => h1 a (mem_insertProp_keys_mono _ _ _ _ ha), ?_⟩
      intro q hq
      rcases List.mem_cons.mp hq with rfl | hq'
      · exact h1 _ (mem_insertProp_keys_self _ _ _)
      · exact h2 q hq'
    case err => exact absurd h (by simp)
    case panic => exact absurd h (by simp)

/-- `findStructTypeFromIdent` from parser.go: the identifier's `Obj` must be
a type specification whose type is a struct literal. -/
def findStructTypeFromIdent : Option ast.Expr → Option (List ast.Field)
  | some (.structType fs) => some fs
  | _ => none

/-- The struct-extraction switch of `paramToDetail`'s object branch: a struct
literal yields its fields, an identifier goes through
`findStructTypeFromIdent`, everything else leaves the struct node nil. -/
def structOf : ast.Expr → Option (List ast.Field)
  | .structType fs => some fs
  | .ident _ d => findStructTypeFromIdent d
  | _ => none

theorem paramToDetail_eq (ns : List String) (ty : ast.Expr) (tag : Option String)
    (doc comment : List String) :
    paramToDetail (.mk ns ty tag doc comment) =
      match (match tag with | none => Except.ok [] | some tg => parseEnumTag tg) with
      | .error e => .err ("issue parsing 'enum' field tag: " ++ e)
      | .ok enum =>
        match (if exprToType ty = "object" then
                 match structOf ty with
                 | some fs => fieldListAcc fs []
                 | none => PResult.panic
               else .ok []) with
        | .err e => .err e
        | .panic => .panic
        | .ok props =>
          match (if exprToType ty = "array" then
                   match ty with
                   | .arrayType elt => PResult.ok (some (Definition.mk (exprToType elt) "" [] [] [] none))
                   | _ => PResult.panic
                 else .ok none) with
          | .err e => .err e
          | .panic => .panic
          | .ok items =>
            .ok (.mk (exprToType ty) (cleanupComment [doc, comment]) enum props [] items) := by
  cases tag <;> cases ty
  case none.ident nm decl =>
    cases decl with
    | none =>
      rw [paramToDetail] <;> simp [structOf, findStructTypeFromIdent]
    | some e =>
      cases e <;> (rw [paramToDetail] <;> simp [structOf, findStructTypeFromIdent])
  case some.ident tg nm decl =>
    cases decl with
    | none =>
      rw [paramToDetail] <;> simp [structOf, findStructTypeFromIdent]
    | some e =>
      cases e <;> (rw [paramToDetail] <;> simp [structOf, findStructTypeFromIdent])
  all_goals (rw [paramToDetail] <;> simp [structOf, findStructTypeFromIdent])

theorem paramToDetail_ok_required_nil (f : ast.Field) (d : Definition)
    (h : paramToDetail f = .ok d) : d.required = [] := by
  cases f with
  | mk names ty tag doc comment =>
    rw [paramToDetail_eq] at h
    split at h
    · exact absurd h (by simp)
    · split at h
      · exact absurd h (by simp)
      · exact absurd h (by simp)
      · split at h
        · exact absurd h (by simp)
        · exact absurd h (by simp)
        · cases h
          rfl

/-- A loaded package whose single file declares `func F(x string)`. -/
def pkgOneStrParam : Package :=
  ⟨[⟨[.funcDecl ⟨"F", [], some [.mk ["x"] (.ident "string" none) none [] []]⟩]⟩]⟩

/-- C1 counterexample: for `func F(x string)` the translator returns the
wrapping `"object"` parameters node with `required = ["x"]`; it does not
replace `parameters` with the scalar property's `Definition`, so no
single-parameter flattening happens. -/
theorem C1_counterexample :
    parseFunctionModel (.loaded [pkgOneStrParam] 0) "F" =
      .ok ⟨"F", "", .mk "object" "" [] [("x", .mk "string" "" [] [] [] none)] ["x"] none⟩ ∧
      Definition.mk "object" "" [] [("x", .mk "string" "" [] [] [] none)] ["x"] none ≠
        Definition.mk "string" "" [] [] [] none := by
  refine ⟨rfl, fun h => ?_⟩
  exact absurd (congrArg Definition.type h) (by decide)

/-- C1 (amended): the translator never flattens: every successful
`ParseFunction` call returns a `parameters` node of type `"object"` (the
wrapping object built by the parameter loop), whatever the number of
properties. -/
theorem C1_theorem (lr : LoadResult) (n : String) (fd : FunctionDetails)
    (h : parseFunctionModel lr n = .ok fd) : fd.parameters.type = "object" := by
  cases lr with
  | loadErr m => exact absurd h (by simp [parseFunctionModel])
  | loaded pkgs c =>
    rw [parseFunctionModel] at h
    repeat' split at h
    all_goals first
      | (cases h; rfl)
      | exact absurd h (by simp)

/-- C1 witness: the amended theorem applied to `func F(x string)`. -/
theorem C1_witness :
    (FunctionDetails.mk "F" ""
        (.mk "object" "" [] [("x", .mk "string" "" [] [] [] none)] ["x"] none)).parameters.type =
      "object" :=
  C1_theorem (.loaded [pkgOneStrParam] 0) "F" _ rfl

/-- C2 counterexample: a struct parameter with a single untagged field `A`
translates to an object whose `required` list is empty — `A` does not appear
in it, although the claim requires untagged fields to be listed. -/
theorem C2_counterexample :
    paramToDetail
        (.mk ["opts"] (.structType [.mk ["A"] (.ident "string" none) none [] []]) none [] []) =
      .ok (.mk "object" "" [] [("A", .mk "string" "" [] [] [] none)] [] none) ∧
      "A" ∉ (Definition.mk "object" "" [] [("A", .mk "string" "" [] [] [] none)] [] none).required :=
  ⟨rfl, by simp [Definition.required]⟩

/-- C2 (amended): every declared field of a struct-typed parameter becomes a
property of the resulting object (keyed by its first declared name), but no
field is ever added to the object's `required` list: the `required` list of
every `Definition` built by `paramToDetail` is empty, and the code implements
no "required" tag at all. -/
theorem C2_theorem :
    (∀ (f : ast.Field) (d : Definition), paramToDetail f = .ok d → d.required = []) ∧
    (∀ (fs : List ast.Field) (out : List (String × Definition)),
       fieldListAcc fs [] = .ok out → ∀ f ∈ fs, identsToName f.names ∈ out.map Prod.fst) :=
  ⟨paramToDetail_ok_required_nil,
   fun fs out h => (fieldListAcc_ok_keys fs [] out h).2⟩

/-- C2 witness: the amended theorem applied to the single-field struct. -/
theorem C2_witness :
    (Definition.mk "object" "" [] [("A", .mk "string" "" [] [] [] none)] [] none).required = [] ∧
    identsToName (ast.Field.mk ["A"] (.ident "string" none) none [] []).names ∈
      ([("A", Definition.mk "string" "" [] [] [] none)].map Prod.fst) :=
  ⟨C2_theorem.1 (.mk ["opts"] (.structType [.mk ["A"] (.ident "string" none) none [] []]) none [] [])
      _ rfl,
   C2_theorem.2 [.mk ["A"] (.ident "string" none) none [] []] _ rfl
      (.mk ["A"] (.ident "string" none) none [] []) (by simp)⟩

/-- C3 counterexample: a parameter of basic type `float64` (resp. `uint8`)
translates to a `Definition` of type `""` — the Go map's zero value — not to
`"number"` as the claimed table requires, and not to the claimed `"null"`
fallback either. -/
theorem C3_counterexample :
    paramToDetail (.mk ["x"] (.ident "float64" none) none [] []) =
        .ok (.mk "" "" [] [] [] none) ∧
      paramToDetail (.mk ["y"] (.ident "uint8" none) none [] []) =
        .ok (.mk "" "" [] [] [] none) ∧
      ("" : DataType) ≠ "number" ∧ ("" : DataType) ≠ "null" :=
  ⟨rfl, rfl, by decide, by decide⟩

/-- C3 (amended): the fixed table maps only `int`, `int32`, `int64` to
`"integer"`, `string` to `"string"`, `bool` to `"boolean"` and the name
`float` (which is not a Go type) to `"number"`; every other basic-type
identifier yields the empty `DataType` `""`, and `"null"` is produced only
for expression kinds the switch does not handle at all. -/
theorem C3_theorem :
    (goTypesToDataType "int" = "integer" ∧ goTypesToDataType "int32" = "integer" ∧
       goTypesToDataType "int64" = "integer" ∧ goTypesToDataType "string" = "string" ∧
       goTypesToDataType "float" = "number" ∧ goTypesToDataType "bool" = "boolean") ∧
    (∀ n : String, n ≠ "int" → n ≠ "int32" → n ≠ "int64" → n ≠ "string" → n ≠ "float" →
       n ≠ "bool" → goTypesToDataType n = "") ∧
    (∀ (n : String) (d : Option ast.Expr), underlyingIsStruct d = false →
       exprToType (.ident n d) = goTypesToDataType n) ∧
    (∀ s : String, exprToType (.other s) = "null") := by
  refine ⟨⟨rfl, rfl, rfl, rfl, rfl, rfl⟩, ?_, ?_, fun s => rfl⟩
  · intro n h1 h2 h3 h4 h5 h6
    simp [goTypesToDataType, h1, h2, h3, h4, h5, h6]
  · intro n d hd
    simp [exprToType, hd]

/-- C3 witness: the amended theorem applied to `uint8`. -/
theorem C3_witness :
    goTypesToDataType "uint8" = "" ∧
      exprToType (.ident "uint8" none) = goTypesToDataType "uint8" ∧
      exprToType (.other "chan int") = "null" :=
  ⟨C3_theorem.2.1 "uint8" (by decide) (by decide) (by decide) (by decide) (by decide) (by decide),
   C3_theorem.2.2.1 "uint8" none rfl,
   C3_theorem.2.2.2 "chan int"⟩

/-- C4: translating a pointer-to-struct parameter panics.  `exprToType`
resolves the pointer to `"object"`, but `paramToDetail`'s struct-extraction
switch handles only struct literals and identifiers, so the struct node
stays nil and dereferencing it crashes — the claimed-unreachable branch is
reached. -/
theorem C4_theorem :
    paramToDetail
        (.mk ["p"] (.starExpr (.structType [.mk ["A"] (.ident "string" none) none [] []]))
          none [] []) = .panic ∧
      exprToType (.starExpr (.structType [.mk ["A"] (.ident "string" none) none [] []])) =
        "object" :=
  ⟨rfl, rfl⟩

/-- C5 counterexample: for a parameter of type `[][]int` the `items` child is
a bare `{type: "array"}` with no `items` of its own — not the fully resolved
schema of the element type `[]int`, which would itself carry
`items: {type: "integer"}`. -/
theorem C5_counterexample :
    paramToDetail (.mk ["xs"] (.arrayType (.arrayType (.ident "int" none))) none [] []) =
      .ok (.mk "array" "" [] [] [] (some (.mk "array" "" [] [] [] none))) ∧
      Definition.mk "array" "" [] [] [] none ≠
        Definition.mk "array" "" [] [] [] (some (.mk "integer" "" [] [] [] none)) := by
  refine ⟨rfl, fun h => ?_⟩
  have h2 := congrArg Definition.items h
  simp [Definition.items] at h2

/-- C5 (amended): for an array-typed parameter the `items` child carries only
the element's `DataType` — its own description, enum, properties, required
and items are all empty — with no recursive expansion of struct or nested
array elements. -/
theorem C5_theorem (ns : List String) (tag : Option String) (doc comment : List String)
    (elt : ast.Expr) (d : Definition)
    (h : paramToDetail (.mk ns (.arrayType elt) tag doc comment) = .ok d) :
    d.items = some (.mk (exprToType elt) "" [] [] [] none) := by
  rw [paramToDetail_eq] at h
  simp only [exprToType] at h
  simp at h
  split at h
  · exact absurd h (by simp)
  · cases h
    rfl

/-- C5 witness: the amended theorem applied to `[][]int`'s inner `[]int`. -/
theorem C5_witness :
    (Definition.mk "array" "" [] [] [] (some (.mk "integer" "" [] [] [] none))).items =
      some (.mk (exprToType (.ident "int" none)) "" [] [] [] none) :=
  C5_theorem ["xs"] none [] [] (.ident "int" none) _ rfl

/-- C6 counterexample: the identifier `float64`, whose static type resolves
to the basic kind `Float64` under `tfStd`, is mapped to `""` by parser.go's
`exprToType` but to `"number"` by the duplicate
`exprToType`/`basicTypeToDataType` pair — the two implementations disagree. -/
theorem C6_counterexample :
    tfStd (.ident "float64" none) = some (.basic .Float64) ∧
      exprToType (.ident "float64" none) = "" ∧
      exprToTypeDup tfStd (.ident "float64" none) = "number" ∧
      exprToType (.ident "float64" none) ≠ exprToTypeDup tfStd (.ident "float64" none) :=
  ⟨rfl, rfl, rfl, by decide⟩

/-- C6 (amended): the two implementations agree on the basic-type identifiers
covered by parser.go's table (`bool`, `int`, `int32`, `int64`, `string`) and
on array and struct shapes, but they disagree on every other resolvable
basic type (`float64`, `uint8`, ...), where parser.go yields the empty
`DataType` and the duplicate yields `"number"`/`"integer"`. -/
theorem C6_theorem :
    exprToType (.ident "bool" none) = exprToTypeDup tfStd (.ident "bool" none) ∧
      exprToType (.ident "int" none) = exprToTypeDup tfStd (.ident "int" none) ∧
      exprToType (.ident "int32" none) = exprToTypeDup tfStd (.ident "int32" none) ∧
      exprToType (.ident "int64" none) = exprToTypeDup tfStd (.ident "int64" none) ∧
      exprToType (.ident "string" none) = exprToTypeDup tfStd (.ident "string" none) ∧
      exprToType (.arrayType (.ident "int" none)) =
        exprToTypeDup tfStd (.arrayType (.ident "int" none)) ∧
      exprToType (.structType []) = exprToTypeDup tfStd (.structType []) ∧
      exprToType (.ident "float64" none) ≠ exprToTypeDup tfStd (.ident "float64" none) ∧
      exprToType (.ident "uint8" none) ≠ exprToTypeDup tfStd (.ident "uint8" none) := by
  refine ⟨rfl, rfl, rfl, rfl, rfl, rfl, rfl, by decide, by decide⟩

/-- C7 counterexample: when the provider's load call itself fails,
`ParseFunction` prints the diagnostic to standard error and terminates the
process with exit code 1 — it hands nothing back to its caller, instead of
returning a `ProviderFailure` error. -/
theorem C7_counterexample :
    parseFunctionModel (.loadErr "load failed") "F" = .exit 1 ∧
      returnsToCaller (parseFunctionModel (.loadErr "load failed") "F") = false :=
  ⟨rfl, rfl⟩

/-- C7 (amended): on a `packages.Load` failure `ParseFunction` exits the
process with code 1 (no error return); when the loaded packages carry
errors it returns the bare error `"parse error"`, which does not wrap the
provider's diagnostic text. -/
theorem C7_theorem :
    (∀ (m n : String), parseFunctionModel (.loadErr m) n = .exit 1) ∧
    (∀ (pkgs : List Package) (c : Nat) (n : String), 0 < c →
       parseFunctionModel (.loaded pkgs c) n = .err "parse error") := by
  refine ⟨fun m n => rfl, ?_⟩
  intro pkgs c n hc
  rw [parseFunctionModel]
  simp [hc]

/-- C7 witness: the amended theorem at a failed load and at a package with
two errors. -/
theorem C7_witness :
    parseFunctionModel (.loadErr "boom") "G" = .exit 1 ∧
      parseFunctionModel (.loaded [] 2) "G" = .err "parse error" :=
  ⟨C7_theorem.1 "boom" "G", C7_theorem.2 [] 2 "G" (by decide)⟩

/-- C8: for a tagged parameter or field whose tag parses and carries an
`enum` key, the resulting `enum` list is exactly the tag's primary value
followed by its options in tag order; a malformed tag makes `paramToDetail`
fail with the wrapped tag error, and the parameter loop wraps any such
failure with the offending parameter's name, so the whole translation fails
rather than ignoring the tag. -/
theorem C8_theorem :
    (∀ (ns : List String) (ty : ast.Expr) (tg : String) (doc comment : List String)
       (pairs : List (String × List String)) (vs : List String) (d : Definition),
       structtagParse (trimBackquotes tg) = .ok pairs →
       pairs.lookup "enum" = some vs →
       paramToDetail (.mk ns ty (some tg) doc comment) = .ok d →
       d.enum = vs) ∧
    (∀ (ns : List String) (ty : ast.Expr) (tg : String) (doc comment : List String)
       (e : String),
       structtagParse (trimBackquotes tg) = .error e →
       paramToDetail (.mk ns ty (some tg) doc comment) =
         .err ("issue parsing 'enum' field tag: " ++
           ("parse('" ++ trimBackquotes tg ++ "'): " ++ e))) ∧
    (∀ (p : ast.Field) (rest : List ast.Field) (props : List (String × Definition))
       (req : List String) (e : String),
       paramToDetail p = .err e →
       processParams (p :: rest) props req =
         .err ("issue parsing parameter '" ++ identsToName p.names ++ "': " ++ e)) := by
  refine ⟨?_, ?_, ?_⟩
  · intro ns ty tg doc comment pairs vs d h1 h2 h3
    rw [paramToDetail_eq] at h3
    simp only [parseEnumTag, h1, h2] at h3
    split at h3
    · exact absurd h3 (by simp)
    · exact absurd h3 (by simp)
    · split at h3
      · exact absurd h3 (by simp)
      · exact absurd h3 (by simp)
      · cases h3
        rfl
  · intro ns ty tg doc comment e h
    rw [paramToDetail_eq]
    simp only [parseEnumTag, h]
  · intro p rest props req e h
    simp [processParams, h]

/-- C8 witness: the theorem applied to the tag `enum:"foo,bar"` on a string
field, and to the malformed tag `enum` (no value). -/
theorem C8_witness :
    (Definition.mk "string" "" ["foo", "bar"] [] [] none).enum = ["foo", "bar"] ∧
      paramToDetail (.mk ["c"] (.ident "string" none) (some "`enum`") [] []) =
        .err ("issue parsing 'enum' field tag: parse('enum'): bad syntax for struct tag pair") ∧
      processParams [.mk ["c"] (.ident "string" none) (some "`enum`") [] []] [] [] =
        .err ("issue parsing parameter 'c': issue parsing 'enum' field tag: parse('enum'): bad syntax for struct tag pair") := by
  refine ⟨?_, ?_, ?_⟩
  · exact C8_theorem.1 ["c"] (.ident "string" none) "`enum:\"foo,bar\"`" [] []
      [("enum", ["foo", "bar"])] ["foo", "bar"] _ rfl rfl rfl
  · exact C8_theorem.2.1 ["c"] (.ident "string" none) "`enum`" [] [] _ rfl
  · exact C8_theorem.2.2 (.mk ["c"] (.ident "string" none) (some "`enum`") [] []) [] [] []
      _ rfl

/-- A loaded package declaring `func F()` with doc `// first`. -/
def pkgF1 : Package := ⟨[⟨[.funcDecl ⟨"F", ["// first"], some []⟩]⟩]⟩

/-- A loaded package declaring `func F()` with doc `// second`. -/
def pkgF2 : Package := ⟨[⟨[.funcDecl ⟨"F", ["// second"], some []⟩]⟩]⟩

/-- C9 counterexample: with two analyzed packages both declaring `F`, the
call returns the declaration of the LAST package (`// second`), not the
first match in unit order. -/
theorem C9_counterexample :
    parseFunctionModel (.loaded [pkgF1, pkgF2] 0) "F" =
      .ok ⟨"F", "second", .mk "object" "" [] [] [] none⟩ ∧
      ("second" : String) ≠ "first" :=
  ⟨rfl, by decide⟩

/-- C9 (amended): the package loop keeps overwriting, so the lookup returns
the match of the last package that has one (first file then first
declaration within each package); when no package declares the function, the
call fails with `ErrFunctionNotFound` and no partial result. -/
theorem C9_theorem :
    (∀ (pkgs : List Package) (n : String),
       locateFunction pkgs n = firstPkgMatch pkgs.reverse n) ∧
    (∀ (pkgs : List Package) (n : String), locateFunction pkgs n = none →
       parseFunctionModel (.loaded pkgs 0) n = .err "function not found") := by
  constructor
  · intro pkgs n
    unfold locateFunction
    rw [locateFunction_foldl_aux]
    cases firstPkgMatch pkgs.reverse n <;> rfl
  · intro pkgs n h
    simp [parseFunctionModel, h]

/-- C9 witness: the amended theorem at the two-package input and at an
absent function name. -/
theorem C9_witness :
    locateFunction [pkgF1, pkgF2] "F" = firstPkgMatch [pkgF1, pkgF2].reverse "F" ∧
      parseFunctionModel (.loaded [pkgF1, pkgF2] 0) "G" = .err "function not found" :=
  ⟨C9_theorem.1 [pkgF1, pkgF2] "F", C9_theorem.2 [pkgF1, pkgF2] "G" rfl⟩

/-- An unnamed parameter of type `int`. -/
def unnamedIntParam : ast.Field := .mk [] (.ident "int" none) none [] []

/-- An unnamed parameter of type `string`. -/
def unnamedStrParam : ast.Field := .mk [] (.ident "string" none) none [] []

/-- C10: an unnamed parameter's name is the empty string; the parameter
loop's required list is exactly the list of parameter names in order (so one
`""` entry per unnamed parameter, with repetition), while the properties
keys stay duplicate-free and contain every parameter's name — hence all
unnamed parameters collapse into the single `""` property entry. -/
theorem C10_theorem :
    (identsToName [] = "") ∧
    (∀ (ps : List ast.Field) (props : List (String × Definition)) (req : List String)
       (out : List (String × Definition) × List String),
       processParams ps props req = .ok out →
       out.2 = req ++ ps.map (fun p => identsToName p.names)) ∧
    (∀ (ps : List ast.Field) (out : List (String × Definition) × List String),
       processParams ps [] [] = .ok out →
       (out.1.map Prod.fst).Nodup ∧ ∀ p ∈ ps, identsToName p.names ∈ out.1.map Prod.fst) := by
  refine ⟨rfl, processParams_ok_required, ?_⟩
  intro ps out h
  obtain ⟨h1, _, h3⟩ := processParams_ok_keys ps [] [] out h
  exact ⟨h1 (by simp), h3⟩

/-- C10 witness: the theorem applied to `func F(int, string)` — required is
`["", ""]` and the properties collapse to the single key `""`. -/
theorem C10_witness :
    (["", ""] : List String) =
        [] ++ [unnamedIntParam, unnamedStrParam].map (fun p => identsToName p.names) ∧
      (([("", Definition.mk "string" "" [] [] [] none)].map Prod.fst).Nodup ∧
        ∀ p ∈ [unnamedIntParam, unnamedStrParam],
          identsToName p.names ∈ [("", Definition.mk "string" "" [] [] [] none)].map Prod.fst) :=
  ⟨C10_theorem.2.1 [unnamedIntParam, unnamedStrParam] [] []
      ([("", Definition.mk "string" "" [] [] [] none)], ["", ""]) rfl,
   C10_theorem.2.2 [unnamedIntParam, unnamedStrParam]
      ([("", Definition.mk "string" "" [] [] [] none)], ["", ""]) rfl⟩
